import Mathlib

/-!
Verification of the HOS-aware trip planner and daily-log synthesizer in
backend/routes/services.py (class RouteGenerationService and its helpers).

Modelling conventions.  Hours and miles are exact rationals (the source
uses IEEE floats; none of the verified properties hinges on rounding).
Instants on the planner clock are rational hours on one global timeline
(the source threads a timezone-aware datetime through timedelta
arithmetic).  Instants inside the day projector and duty-timeline builder
are integer microseconds, the resolution of Python datetimes.  The Mapbox
HTTP client is replaced by an injected provider that returns the address
for an inserted stop; no verified property depends on the address values.
Database writes are modelled by returning the record that the source
saves.
-/

namespace Trucking

/-! ## HOS constants (class HOSRules) -/

def maxDrivingHoursPerDay : ℚ := 11
def maxOnDutyHoursPerDay : ℚ := 14
def maxHoursPerCycle : ℚ := 70
def required30MinBreakAfterHours : ℚ := 8
def averageSpeedMph : ℚ := 55
def fuelStopIntervalMiles : ℚ := 1000
def fuelStopDurationMinutes : ℚ := 30
def break30MinDuration : ℚ := 30
def break10HrDuration : ℚ := 600
def pickupDurationMinutes : ℚ := 60
def dropoffDurationMinutes : ℚ := 60

/-! ## Planner data model -/

inductive StopType where
  | current
  | pickup
  | dropoff
  | fuel
  | break30min
  | break10hr
deriving DecidableEq

/-- One element of RouteGenerationService.stops (the dict built by _add_stop). -/
structure PStop where
  sequence : ℕ
  stopType : StopType
  address : String
  arrival : ℚ
  departure : ℚ
  durationMinutes : ℚ
  description : String
  cumulativeMiles : ℚ
deriving DecidableEq

/-- The mutable fields of RouteGenerationService set in __init__ and
updated during stop generation. -/
structure PlanState where
  currentTime : ℚ
  cumulativeMiles : ℚ
  dailyDrivingHours : ℚ
  dailyOnDutyHours : ℚ
  hoursSince30MinBreak : ℚ
  milesSinceFuel : ℚ
  stops : List PStop
deriving DecidableEq

def tripStartDesc : String := "Trip start location"
def pickupDesc : String := "Load pickup (1 hour)"
def dropoffDesc : String := "Load delivery (1 hour)"
def break30Desc : String := "Mandatory 30-minute break"
def break10Desc : String := "Mandatory 10-hour off-duty rest period"
def fuelDesc : String := "Refueling stop"

/-- RouteGenerationService._add_stop: append a stop dict at the current
time, advance the clock to the departure, and count pickup/dropoff/fuel
dwell time as on-duty hours. -/
def addStop (st : PlanState) (ty : StopType) (addr : String)
    (durationMinutes : ℚ) (desc : String) : PlanState :=
  let arrival := st.currentTime
  let departure := arrival + durationMinutes / 60
  let newStop : PStop :=
    { sequence := st.stops.length
      stopType := ty
      address := addr
      arrival := arrival
      departure := departure
      durationMinutes := durationMinutes
      description := desc
      cumulativeMiles := st.cumulativeMiles }
  let st1 : PlanState := { st with stops := st.stops ++ [newStop], currentTime := departure }
  if ty = StopType.pickup ∨ ty = StopType.dropoff ∨ ty = StopType.fuel then
    { st1 with dailyOnDutyHours := st1.dailyOnDutyHours + durationMinutes / 60 }
  else st1

inductive BreakType where
  | thirtyMin
  | tenHour
deriving DecidableEq

/-- RouteGenerationService._insert_break_stop, after the map-provider
lookups have produced the stop address.  The 30-minute branch adds the
break duration to daily_on_duty_hours and zeroes hours_since_30min_break;
the 10-hour branch zeroes the three daily counters. -/
def insertBreakStop (st : PlanState) (addr : String) (bt : BreakType) : PlanState :=
  match bt with
  | BreakType.thirtyMin =>
    let st1 := addStop st StopType.break30min addr break30MinDuration break30Desc
    { st1 with dailyOnDutyHours := st1.dailyOnDutyHours + break30MinDuration / 60
               hoursSince30MinBreak := 0 }
  | BreakType.tenHour =>
    let st1 := addStop st StopType.break10hr addr break10HrDuration break10Desc
    { st1 with dailyDrivingHours := 0
               dailyOnDutyHours := 0
               hoursSince30MinBreak := 0 }

/-- RouteGenerationService._insert_fuel_stop. -/
def insertFuelStop (st : PlanState) (addr : String) : PlanState :=
  let st1 := addStop st StopType.fuel addr fuelStopDurationMinutes fuelDesc
  { st1 with milesSinceFuel := 0 }

/-- The six mutations a drive performs on the service state (the block
repeated in _generate_stops for leg 0 and in _traverse_route_with_stops). -/
def driveAdvance (st : PlanState) (hours miles : ℚ) : PlanState :=
  { st with currentTime := st.currentTime + hours
            cumulativeMiles := st.cumulativeMiles + miles
            dailyDrivingHours := st.dailyDrivingHours + hours
            dailyOnDutyHours := st.dailyOnDutyHours + hours
            hoursSince30MinBreak := st.hoursSince30MinBreak + hours
            milesSinceFuel := st.milesSinceFuel + miles }

/-- The map-provider capability used for inserted stops: the composition
of get_point_along_route and find_nearest_stop_location, as a function of
the distance covered in the pickup-to-dropoff leg. -/
structure MapProvider where
  restAddr : ℚ → String
  fuelAddr : ℚ → String

/-- Result of one iteration of the while-loop body in
_traverse_route_with_stops: either a stop was inserted (the loop
continues without driving), or a drive chunk advanced the state. -/
inductive StepOut where
  | inserted (st : PlanState)
  | drove (st : PlanState) (rem cov : ℚ)
deriving DecidableEq

def StepOut.state : StepOut → PlanState
  | StepOut.inserted st => st
  | StepOut.drove st _ _ => st

/-- Distance remaining after the iteration (unchanged when a stop was
inserted). -/
def StepOut.remAfter (rem : ℚ) : StepOut → ℚ
  | StepOut.inserted _ => rem
  | StepOut.drove _ r _ => r

/-- One iteration of the while-loop body of
RouteGenerationService._traverse_route_with_stops, in source order:
30-minute break, then 10-hour rest, then fuel, else drive the longest
chunk that hits none of the bounds. -/
def traverseStep (mp : MapProvider) (st : PlanState) (rem cov : ℚ) : StepOut :=
  if st.hoursSince30MinBreak ≥ required30MinBreakAfterHours then
    StepOut.inserted (insertBreakStop st (mp.restAddr cov) BreakType.thirtyMin)
  else if st.dailyDrivingHours ≥ maxDrivingHoursPerDay ∨
      st.dailyOnDutyHours ≥ maxOnDutyHoursPerDay then
    StepOut.inserted (insertBreakStop st (mp.restAddr cov) BreakType.tenHour)
  else if st.milesSinceFuel ≥ fuelStopIntervalMiles then
    StepOut.inserted (insertFuelStop st (mp.fuelAddr cov))
  else
    let hoursUntilBreak := required30MinBreakAfterHours - st.hoursSince30MinBreak
    let hoursUntilDailyLimit := min (maxDrivingHoursPerDay - st.dailyDrivingHours)
      (maxOnDutyHoursPerDay - st.dailyOnDutyHours)
    let milesUntilFuel := fuelStopIntervalMiles - st.milesSinceFuel
    let hoursCanDrive := min hoursUntilBreak hoursUntilDailyLimit
    let milesCanDrive := min (min (hoursCanDrive * averageSpeedMph) milesUntilFuel) rem
    let hoursToDrive := milesCanDrive / averageSpeedMph
    StepOut.drove (driveAdvance st hoursToDrive milesCanDrive)
      (rem - milesCanDrive) (cov + milesCanDrive)

/-- The while-loop of _traverse_route_with_stops, with an explicit
iteration budget (the source loops until distance_remaining ≤ 0; `none`
means the budget was exhausted before the leg was covered). -/
def traverseLoop (mp : MapProvider) : ℕ → PlanState → ℚ → ℚ → Option PlanState
  | 0, st, rem, _ => if rem ≤ 0 then some st else none
  | g + 1, st, rem, cov =>
    if rem ≤ 0 then some st
    else
      match traverseStep mp st rem cov with
      | StepOut.inserted st1 => traverseLoop mp g st1 rem cov
      | StepOut.drove st1 rem1 cov1 => traverseLoop mp g st1 rem1 cov1

/-- Trip inputs consumed by stop generation (coordinates omitted: they
only feed the map provider). -/
structure TripInput where
  currentAddress : String
  pickupAddress : String
  dropoffAddress : String
  currentCycleHoursUsed : ℚ
  plannedStartHours : ℚ

/-- One leg of the Mapbox directions response, in native units. -/
structure RouteLeg where
  distanceMeters : ℚ
  durationSeconds : ℚ

structure BaseRoute where
  leg0 : RouteLeg
  leg1 : RouteLeg

/-- Unit conversion used throughout services.py: miles = meters * 0.000621371. -/
def metersToMiles (m : ℚ) : ℚ := m * (621371 / 1000000000)

def secondsToHours (s : ℚ) : ℚ := s / 3600

def initState (trip : TripInput) : PlanState :=
  { currentTime := trip.plannedStartHours
    cumulativeMiles := 0
    dailyDrivingHours := 0
    dailyOnDutyHours := 0
    hoursSince30MinBreak := 0
    milesSinceFuel := 0
    stops := [] }

/-- RouteGenerationService._generate_stops: emit the CURRENT stop, drive
leg 0 (current to pickup) as one interval with no HOS or fuel checks,
emit PICKUP, run the traversal loop over leg 1, then emit DROPOFF.
(The source also passes leg 1's duration to the loop; the loop never
reads it.) -/
def generateStops (mp : MapProvider) (trip : TripInput) (base : BaseRoute)
    (gas : ℕ) : Option PlanState :=
  let st0 := initState trip
  let st1 := addStop st0 StopType.current trip.currentAddress 0 tripStartDesc
  let driveTimeHours := secondsToHours base.leg0.durationSeconds
  let driveDistanceMiles := metersToMiles base.leg0.distanceMeters
  let st2 := driveAdvance st1 driveTimeHours driveDistanceMiles
  let st3 := addStop st2 StopType.pickup trip.pickupAddress pickupDurationMinutes pickupDesc
  let totalLegDistance := metersToMiles base.leg1.distanceMeters
  match traverseLoop mp gas st3 totalLegDistance 0 with
  | none => none
  | some st4 =>
    some (addStop st4 StopType.dropoff trip.dropoffAddress dropoffDurationMinutes dropoffDesc)

/-! ## Feasibility check and the trip record it persists -/

/-- The fields of the Trip model that _check_feasibility reads and
writes.  The formatted feasibility string is modelled by the pair of
numbers it interpolates: (needed hours, available hours). -/
structure TripRec where
  currentCycleHoursUsed : ℚ
  isFeasible : Bool
  feasibilityMessage : Option (ℚ × ℚ)
  totalDistanceMiles : Option ℚ
  estimatedDurationHours : Option ℚ
deriving DecidableEq

/-- The route result consumed by _check_feasibility. -/
structure RouteResult where
  distanceMiles : ℚ
  durationHours : ℚ
deriving DecidableEq

/-- RouteGenerationService._check_feasibility.  Both branches call
trip.save(); the returned record is the persisted trip, and the Bool is
the return value of the method. -/
def checkFeasibility (t : TripRec) (r : RouteResult) : TripRec × Bool :=
  let hoursAvailable := maxHoursPerCycle - t.currentCycleHoursUsed
  if hoursAvailable < r.durationHours then
    ({ t with isFeasible := false
              feasibilityMessage := some (r.durationHours, hoursAvailable) }, false)
  else
    ({ t with isFeasible := true
              totalDistanceMiles := some r.distanceMiles
              estimatedDurationHours := some r.durationHours }, true)

/-! ## Local-date computation (timezone handling in __init__) -/

def usPerHour : ℤ := 3600000000

def usPerDay : ℤ := 86400000000

/-- zoneinfo.ZoneInfo with the fixed zone chosen in __init__:
Asia/Amman, permanently UTC+3. -/
def ammanOffsetUs : ℤ := 3 * usPerHour

/-- A timezone-aware Python datetime: the wall-clock reading (in
microseconds on a local calendar) together with its UTC offset. -/
structure AwareDT where
  wall : ℤ
  offset : ℤ
deriving DecidableEq

/-- The instant an aware datetime denotes. -/
def AwareDT.instant (dt : AwareDT) : ℤ := dt.wall - dt.offset

/-- datetime.astimezone(ZoneInfo Asia/Amman): same instant, Amman wall clock. -/
def toAmman (dt : AwareDT) : AwareDT :=
  { wall := dt.instant + ammanOffsetUs, offset := ammanOffsetUs }

/-- date() of a datetime reads its wall clock. -/
def dateOfWall (wall : ℤ) : ℤ := wall.fdiv usPerDay

/-- The local calendar date the service assigns to the planned start: in
__init__ the aware planned_start_time is converted to the fixed
Asia/Amman zone, and every later date() call sees that zone. -/
def serviceLocalDate (dt : AwareDT) : ℤ := dateOfWall (toAmman dt).wall

/-- Modelled from the spec: the local date "computed in the timezone of
the trip's plannedStart", i.e. the date read off the planned start's own
wall clock.  Stated for comparison with serviceLocalDate. -/
def specLocalDate (dt : AwareDT) : ℤ := dateOfWall dt.wall

/-! ## Duty-timeline builder (daily logs)

Times below are local wall-clock microseconds.  _create_daily_log_for_date
computes day_start = datetime.combine(date, time.min) and
day_end = datetime.combine(date, time.max), i.e. 23:59:59.999999. -/

def dayStartUs (d : ℤ) : ℤ := d * usPerDay

def dayEndUs (d : ℤ) : ℤ := d * usPerDay + (usPerDay - 1)

inductive DutyStatus where
  | offDuty
  | sleeper
  | driving
  | onDuty
deriving DecidableEq

/-- The duty_status_map dict in _create_log_entries_for_day, with its
.get default of off_duty. -/
def dutyStatusOfStopType : StopType → DutyStatus
  | StopType.pickup => DutyStatus.onDuty
  | StopType.dropoff => DutyStatus.onDuty
  | StopType.fuel => DutyStatus.onDuty
  | StopType.break30min => DutyStatus.offDuty
  | StopType.break10hr => DutyStatus.sleeper
  | StopType.current => DutyStatus.offDuty

/-- A drive slice for one date, as stored in drives_by_date: the
intersection of [prev.departure, this.arrival] with the day window,
kept only when it has positive length. -/
structure DrvSlice where
  dayStart : ℤ
  dayEnd : ℤ
  fromAddr : String
  toAddr : String
deriving DecidableEq

/-- A stop slice for one date, as stored in stops_by_date: the
intersection of [arrival, departure] with the day window (zero-length
slices are kept). -/
structure StopSlice where
  dayArrival : ℤ
  dayDeparture : ℤ
  stype : StopType
  addr : String
  desc : String
deriving DecidableEq

/-- One element of the all_events list. -/
inductive Event where
  | drive (d : DrvSlice)
  | stop (s : StopSlice)
deriving DecidableEq

/-- The sort key: event['time'], i.e. day_start for drives and
day_arrival for stops. -/
def Event.key : Event → ℤ
  | Event.drive d => d.dayStart
  | Event.stop s => s.dayArrival

def Event.isStop : Event → Bool
  | Event.drive _ => false
  | Event.stop _ => true

/-- End instant of the slice an event denotes. -/
def Event.endKey : Event → ℤ
  | Event.drive d => d.dayEnd
  | Event.stop s => s.dayDeparture

/-- Stable insertion: place the new event after every event already in
the list whose key is not greater.  Folding this over the event list in
order models Python's stable list.sort(key=time). -/
def insertEvent (x : Event) : List Event → List Event
  | [] => [x]
  | y :: l => if y.key ≤ x.key then y :: insertEvent x l else x :: y :: l

def sortAux (acc : List Event) : List Event → List Event
  | [] => acc
  | x :: l => sortAux (insertEvent x acc) l

/-- all_events.sort(key=time): a stable sort of the event list. -/
def sortEvents (l : List Event) : List Event := sortAux [] l

/-- The all_events list of _create_log_entries_for_day: drives are
appended first, then stops, and the list is sorted stably by time. -/
def mkAllEvents (drives : List DrvSlice) (stops : List StopSlice) : List Event :=
  sortEvents (drives.map Event.drive ++ stops.map Event.stop)

/-- One pending log entry (the dicts accumulated in `entries`). -/
structure Entry where
  status : DutyStatus
  start : ℤ
  eend : ℤ
  loc : String
  remarks : String
deriving DecidableEq

def offDutyRemark : String := "Off duty"

def naLoc : String := "N/A"

def enRouteTo (a : String) : String := "En route to " ++ a

def drivingFrom (a : String) : String := "Driving from " ++ a

/-- Carry-forward location for a gap entry: entries[-1]['location'] if
entries else the fallback. -/
def lastLoc (acc : List Entry) (fallback : String) : String :=
  match acc.getLast? with
  | some e => e.loc
  | none => fallback

def mkOffEntry (acc : List Entry) (s e : ℤ) (fallback : String) : Entry :=
  { status := DutyStatus.offDuty
    start := s
    eend := e
    loc := lastLoc acc fallback
    remarks := offDutyRemark }

/-- The event loop of _create_log_entries_for_day: fill off-duty gaps,
emit a driving entry per drive slice, emit a duty entry per stop slice
with positive residual length, and thread the cursor. -/
def emitEvents : List Entry → ℤ → List Event → List Entry × ℤ
  | acc, cursor, [] => (acc, cursor)
  | acc, cursor, Event.drive d :: rest =>
    let acc1 := if d.dayStart > cursor then
        acc ++ [mkOffEntry acc cursor d.dayStart d.fromAddr] else acc
    let cursor1 := if d.dayStart > cursor then d.dayStart else cursor
    let drvEntry : Entry :=
      { status := DutyStatus.driving
        start := cursor1
        eend := d.dayEnd
        loc := enRouteTo d.toAddr
        remarks := drivingFrom d.fromAddr }
    emitEvents (acc1 ++ [drvEntry]) d.dayEnd rest
  | acc, cursor, Event.stop s :: rest =>
    let acc1 := if s.dayArrival > cursor then
        acc ++ [mkOffEntry acc cursor s.dayArrival s.addr] else acc
    let cursor1 := if s.dayArrival > cursor then s.dayArrival else cursor
    if s.dayDeparture > cursor1 then
      let stopEntry : Entry :=
        { status := dutyStatusOfStopType s.stype
          start := cursor1
          eend := s.dayDeparture
          loc := s.addr
          remarks := s.desc }
      emitEvents (acc1 ++ [stopEntry]) s.dayDeparture rest
    else
      emitEvents acc1 cursor1 rest

/-- The trailing block of _create_log_entries_for_day: close the day
with an off-duty entry when the cursor has not reached day_end. -/
def closeDay (dayEndT : ℤ) (p : List Entry × ℤ) : List Entry :=
  if p.2 < dayEndT then p.1 ++ [mkOffEntry p.1 p.2 dayEndT naLoc] else p.1

/-- The persistence loop at the end of _create_log_entries_for_day for
entries after the first, where prev is entries[i-1] of the ORIGINAL list
(even when that entry was itself skipped): an entry is skipped when
end ≤ start (logged as invalid) or when start < prev.end (logged as
OVERLAP); a gap is only logged. -/
def validateAux (prev : Entry) : List Entry → List Entry
  | [] => []
  | e :: rest =>
    if e.eend ≤ e.start then validateAux e rest
    else if e.start < prev.eend then validateAux e rest
    else e :: validateAux e rest

/-- The full persistence loop: LogEntry rows actually created, in order. -/
def validateEntries : List Entry → List Entry
  | [] => []
  | e :: rest =>
    if e.eend ≤ e.start then validateAux e rest
    else e :: validateAux e rest

/-- _create_log_entries_for_day for one date: build and sort all_events,
run the event loop from day_start, close the day, and persist through
the validation loop. -/
def createLogEntriesForDay (dayStartT dayEndT : ℤ) (drives : List DrvSlice)
    (stops : List StopSlice) : List Entry :=
  validateEntries (closeDay dayEndT (emitEvents [] dayStartT (mkAllEvents drives stops)))

/-- The partition predicate for a finished day: the entries chain
exactly from `a` to `b`, each with positive length, each starting where
the previous one ended. -/
def Chained : ℤ → List Entry → ℤ → Prop
  | a, [], b => a = b
  | a, e :: l, b => e.start = a ∧ a < e.eend ∧ Chained e.eend l b

def Chained.dec : (a : ℤ) → (l : List Entry) → (b : ℤ) → Decidable (Chained a l b)
  | a, [], b => inferInstanceAs (Decidable (a = b))
  | _, e :: l, b =>
    have : Decidable (Chained e.eend l b) := Chained.dec e.eend l b
    inferInstanceAs (Decidable (_ ∧ _ ∧ _))

instance (a : ℤ) (l : List Entry) (b : ℤ) : Decidable (Chained a l b) := Chained.dec a l b

/-! ## Fuel-gap accounting

Cumulative mileage recorded on the FUEL stops of a plan, and the
invariant tying miles_since_fuel to the last recorded fuel mileage. -/

def fuelCums (l : List PStop) : List ℚ :=
  (l.filter fun s => s.stopType = StopType.fuel).map fun s => s.cumulativeMiles

/-- Consecutive fuel mileages at most fuelStopIntervalMiles apart. -/
def gapLE (a b : ℚ) : Prop := b ≤ a + fuelStopIntervalMiles

/-- Loop invariant for the fuel rule: the gaps recorded so far are
within bounds and, once a fuel stop exists, miles_since_fuel measures
exactly the miles driven past it and is itself within bounds. -/
def FuelInv (st : PlanState) : Prop :=
  List.Chain' gapLE (fuelCums st.stops) ∧
  ∀ c ∈ (fuelCums st.stops).getLast?,
    c = st.cumulativeMiles - st.milesSinceFuel ∧ st.milesSinceFuel ≤ fuelStopIntervalMiles

/-! ## A concrete planning run used by witnesses -/

def restA : String := "Rest Area"
def fuelA : String := "Fuel Station"
def addrA : String := "A"
def addrB : String := "B"
def addrC : String := "C"

def mpZ : MapProvider := { restAddr := fun _ => restA, fuelAddr := fun _ => fuelA }

def tripZ : TripInput :=
  { currentAddress := addrA
    pickupAddress := addrB
    dropoffAddress := addrC
    currentCycleHoursUsed := 0
    plannedStartHours := 0 }

/-- A 55-mile, one-hour leg in Mapbox native units. -/
def leg55 : RouteLeg := { distanceMeters := 55000000000 / 621371, durationSeconds := 3600 }

def baseZ : BaseRoute := { leg0 := leg55, leg1 := leg55 }

def stopZ0 : PStop :=
  { sequence := 0
    stopType := StopType.current
    address := addrA
    arrival := 0
    departure := 0
    durationMinutes := 0
    description := tripStartDesc
    cumulativeMiles := 0 }

def stopZ1 : PStop :=
  { sequence := 1
    stopType := StopType.pickup
    address := addrB
    arrival := 1
    departure := 2
    durationMinutes := 60
    description := pickupDesc
    cumulativeMiles := 55 }

def stopZ2 : PStop :=
  { sequence := 2
    stopType := StopType.dropoff
    address := addrC
    arrival := 3
    departure := 4
    durationMinutes := 60
    description := dropoffDesc
    cumulativeMiles := 110 }

def stZ : PlanState :=
  { currentTime := 4
    cumulativeMiles := 110
    dailyDrivingHours := 2
    dailyOnDutyHours := 4
    hoursSince30MinBreak := 2
    milesSinceFuel := 110
    stops := [stopZ0, stopZ1, stopZ2] }

/-- A run whose current-to-pickup leg is 1100 miles (2 hours in the
injected route result) and whose pickup-to-dropoff leg is 100 miles. -/
def tripY : TripInput :=
  { currentAddress := addrA
    pickupAddress := addrB
    dropoffAddress := addrC
    currentCycleHoursUsed := 0
    plannedStartHours := 0 }

def baseY : BaseRoute :=
  { leg0 := { distanceMeters := 1100000000000 / 621371, durationSeconds := 7200 }
    leg1 := { distanceMeters := 100000000000 / 621371, durationSeconds := 7200 } }

def stopY0 : PStop :=
  { sequence := 0
    stopType := StopType.current
    address := addrA
    arrival := 0
    departure := 0
    durationMinutes := 0
    description := tripStartDesc
    cumulativeMiles := 0 }

def stopY1 : PStop :=
  { sequence := 1
    stopType := StopType.pickup
    address := addrB
    arrival := 2
    departure := 3
    durationMinutes := 60
    description := pickupDesc
    cumulativeMiles := 1100 }

def stopY2 : PStop :=
  { sequence := 2
    stopType := StopType.fuel
    address := fuelA
    arrival := 3
    departure := 7 / 2
    durationMinutes := 30
    description := fuelDesc
    cumulativeMiles := 1100 }

def stopY3 : PStop :=
  { sequence := 3
    stopType := StopType.dropoff
    address := addrC
    arrival := 117 / 22
    departure := 139 / 22
    durationMinutes := 60
    description := dropoffDesc
    cumulativeMiles := 1200 }

def stY : PlanState :=
  { currentTime := 139 / 22
    cumulativeMiles := 1200
    dailyDrivingHours := 42 / 11
    dailyOnDutyHours := 139 / 22
    hoursSince30MinBreak := 42 / 11
    milesSinceFuel := 100
    stops := [stopY0, stopY1, stopY2, stopY3] }

/-! ## Claim C1 -/

/-- State with 8 driving hours since the last break and 3 on-duty hours. -/
def stC1 : PlanState :=
  { currentTime := 10
    cumulativeMiles := 200
    dailyDrivingHours := 4
    dailyOnDutyHours := 3
    hoursSince30MinBreak := 8
    milesSinceFuel := 200
    stops := [] }

/-! ## Claim C3 -/

def tripRecC3 : TripRec :=
  { currentCycleHoursUsed := 45
    isFeasible := true
    feasibilityMessage := none
    totalDistanceMiles := none
    estimatedDurationHours := none }

def routeResC3 : RouteResult := { distanceMiles := 1650, durationHours := 30 }

/-! ## Claim C7 -/

/-- Planned start 2025-01-01 22:00 UTC expressed with a UTC timezone:
wall clock 22 hours into day 0 of the local epoch, offset 0. -/
def dtC7 : AwareDT := { wall := 79200000000, offset := 0 }

/-- The same instant expressed with a UTC+1 timezone. -/
def dtC7b : AwareDT := { wall := 82800000000, offset := 3600000000 }

/-! ## Claim C2 -/

def drvC2a : DrvSlice := { dayStart := 0, dayEnd := 10, fromAddr := addrA, toAddr := addrB }

def drvC2b : DrvSlice := { dayStart := 5, dayEnd := 7, fromAddr := addrB, toAddr := addrC }

def entC2a : Entry :=
  { status := DutyStatus.driving, start := 0, eend := 10, loc := addrA, remarks := offDutyRemark }

def entC2b : Entry :=
  { status := DutyStatus.driving, start := 10, eend := 7, loc := addrB, remarks := offDutyRemark }

/-! ## Properties of the stable event sort -/

/-- Comparison by event time, the sort key. -/
def keyLE (a b : Event) : Prop := a.key ≤ b.key

/-- At equal times a stop never precedes a drive (the stable sort keeps
the drive first, because drives enter all_events first). -/
def stopDriveOrd (a b : Event) : Prop :=
  a.isStop = true → b.isStop = false → a.key ≠ b.key

/-! ## The duty-timeline partition invariant -/

/-- Well-formedness of one per-day event: it lies inside the day window
and its end does not precede its start. -/
def EvWF (dayStartT dayEndT : ℤ) (e : Event) : Prop :=
  dayStartT ≤ e.key ∧ e.key ≤ e.endKey ∧ e.endKey ≤ dayEndT

/-- Two events do not overlap (symmetric). -/
def evDisj (a b : Event) : Prop := a.endKey ≤ b.key ∨ b.endKey ≤ a.key

instance (a b : Event) : Decidable (evDisj a b) := by
  unfold evDisj
  infer_instance

/-- A pickup stop slice one microsecond window inside day 0. -/
def stpC4 : StopSlice :=
  { dayArrival := 1000, dayDeparture := 2000, stype := StopType.pickup
    addr := addrA, desc := pickupDesc }

/-! ## Claim C5 -/

def drvC5 : DrvSlice := { dayStart := 10, dayEnd := 20, fromAddr := addrA, toAddr := addrB }

def stpC5 : StopSlice :=
  { dayArrival := 10, dayDeparture := 10, stype := StopType.current
    addr := addrA, desc := tripStartDesc }

/-- A state that triggers the 30-minute-break rule. -/
def stepStA : PlanState :=
  { currentTime := 0, cumulativeMiles := 0, dailyDrivingHours := 9, dailyOnDutyHours := 9
    hoursSince30MinBreak := 9, milesSinceFuel := 1200, stops := [] }

/-- A state that triggers the 10-hour-rest rule with the break rule off. -/
def stepStB : PlanState :=
  { currentTime := 0, cumulativeMiles := 0, dailyDrivingHours := 11, dailyOnDutyHours := 11
    hoursSince30MinBreak := 0, milesSinceFuel := 1200, stops := [] }

/-- A state that triggers the fuel rule with break and rest rules off. -/
def stepStC : PlanState :=
  { currentTime := 0, cumulativeMiles := 0, dailyDrivingHours := 0, dailyOnDutyHours := 0
    hoursSince30MinBreak := 0, milesSinceFuel := 1000, stops := [] }

/-- A state in which no rule triggers, so the planner drives. -/
def stepStD : PlanState :=
  { currentTime := 0, cumulativeMiles := 0, dailyDrivingHours := 0, dailyOnDutyHours := 0
    hoursSince30MinBreak := 0, milesSinceFuel := 0, stops := [] }

/-! ## Basic facts about the planner state operations -/

theorem addStop_stops (st : PlanState) (ty : StopType) (addr : String)
    (durationMinutes : ℚ) (desc : String) :
    (addStop st ty addr durationMinutes desc).stops = st.stops ++
      [{ sequence := st.stops.length
         stopType := ty
         address := addr
         arrival := st.currentTime
         departure := st.currentTime + durationMinutes / 60
         durationMinutes := durationMinutes
         description := desc
         cumulativeMiles := st.cumulativeMiles }] := by
  unfold addStop
  split <;> rfl

theorem addStop_cumulativeMiles (st : PlanState) (ty : StopType) (addr : String)
    (durationMinutes : ℚ) (desc : String) :
    (addStop st ty addr durationMinutes desc).cumulativeMiles = st.cumulativeMiles := by
  unfold addStop
  split <;> rfl

theorem addStop_milesSinceFuel (st : PlanState) (ty : StopType) (addr : String)
    (durationMinutes : ℚ) (desc : String) :
    (addStop st ty addr durationMinutes desc).milesSinceFuel = st.milesSinceFuel := by
  unfold addStop
  split <;> rfl

theorem addStop_dailyDrivingHours (st : PlanState) (ty : StopType) (addr : String)
    (durationMinutes : ℚ) (desc : String) :
    (addStop st ty addr durationMinutes desc).dailyDrivingHours = st.dailyDrivingHours := by
  unfold addStop
  split <;> rfl

theorem addStop_hoursSince30MinBreak (st : PlanState) (ty : StopType) (addr : String)
    (durationMinutes : ℚ) (desc : String) :
    (addStop st ty addr durationMinutes desc).hoursSince30MinBreak =
      st.hoursSince30MinBreak := by
  unfold addStop
  split <;> rfl

theorem addStop_currentTime (st : PlanState) (ty : StopType) (addr : String)
    (durationMinutes : ℚ) (desc : String) :
    (addStop st ty addr durationMinutes desc).currentTime =
      st.currentTime + durationMinutes / 60 := by
  unfold addStop
  split <;> rfl

theorem addStop_dailyOnDutyHours_off (st : PlanState) (ty : StopType) (addr : String)
    (durationMinutes : ℚ) (desc : String)
    (h : ¬(ty = StopType.pickup ∨ ty = StopType.dropoff ∨ ty = StopType.fuel)) :
    (addStop st ty addr durationMinutes desc).dailyOnDutyHours = st.dailyOnDutyHours := by
  unfold addStop
  rw [if_neg h]

theorem addStop_dailyOnDutyHours_on (st : PlanState) (ty : StopType) (addr : String)
    (durationMinutes : ℚ) (desc : String)
    (h : ty = StopType.pickup ∨ ty = StopType.dropoff ∨ ty = StopType.fuel) :
    (addStop st ty addr durationMinutes desc).dailyOnDutyHours =
      st.dailyOnDutyHours + durationMinutes / 60 := by
  unfold addStop
  rw [if_pos h]

theorem addStop_onDuty_break30 (st : PlanState) (addr : String)
    (durationMinutes : ℚ) (desc : String) :
    (addStop st StopType.break30min addr durationMinutes desc).dailyOnDutyHours =
      st.dailyOnDutyHours :=
  addStop_dailyOnDutyHours_off st _ addr durationMinutes desc (by simp)

theorem addStop_onDuty_break10 (st : PlanState) (addr : String)
    (durationMinutes : ℚ) (desc : String) :
    (addStop st StopType.break10hr addr durationMinutes desc).dailyOnDutyHours =
      st.dailyOnDutyHours :=
  addStop_dailyOnDutyHours_off st _ addr durationMinutes desc (by simp)

theorem fuelCums_append (l₁ l₂ : List PStop) :
    fuelCums (l₁ ++ l₂) = fuelCums l₁ ++ fuelCums l₂ := by
  simp [fuelCums]

theorem fuelCums_singleton_nonfuel (s : PStop) (h : s.stopType ≠ StopType.fuel) :
    fuelCums [s] = [] := by
  simp [fuelCums, List.filter, h]

theorem fuelCums_singleton_fuel (s : PStop) (h : s.stopType = StopType.fuel) :
    fuelCums [s] = [s.cumulativeMiles] := by
  simp [fuelCums, List.filter, h]

theorem fuelInv_of_no_fuel (st : PlanState) (h : fuelCums st.stops = []) :
    FuelInv st := by
  constructor
  · rw [h]; exact List.chain'_nil
  · rw [h]; simp

theorem fuelInv_addStop_nonfuel (st : PlanState) (ty : StopType) (addr : String)
    (durationMinutes : ℚ) (desc : String) (hty : ty ≠ StopType.fuel)
    (h : FuelInv st) : FuelInv (addStop st ty addr durationMinutes desc) := by
  have hs := addStop_stops st ty addr durationMinutes desc
  have hc := addStop_cumulativeMiles st ty addr durationMinutes desc
  have hf := addStop_milesSinceFuel st ty addr durationMinutes desc
  constructor
  · rw [hs, fuelCums_append, fuelCums_singleton_nonfuel _ hty, List.append_nil]
    exact h.1
  · rw [hs, hc, hf, fuelCums_append, fuelCums_singleton_nonfuel _ hty, List.append_nil]
    exact h.2

theorem fuelInv_insertBreakStop (st : PlanState) (addr : String) (bt : BreakType)
    (h : FuelInv st) : FuelInv (insertBreakStop st addr bt) := by
  cases bt with
  | thirtyMin =>
    have h1 := fuelInv_addStop_nonfuel st StopType.break30min addr break30MinDuration
      break30Desc (by simp) h
    exact ⟨h1.1, h1.2⟩
  | tenHour =>
    have h1 := fuelInv_addStop_nonfuel st StopType.break10hr addr break10HrDuration
      break10Desc (by simp) h
    exact ⟨h1.1, h1.2⟩

theorem fuelInv_insertFuelStop (st : PlanState) (addr : String)
    (h : FuelInv st) : FuelInv (insertFuelStop st addr) := by
  have hs := addStop_stops st StopType.fuel addr fuelStopDurationMinutes fuelDesc
  have hc := addStop_cumulativeMiles st StopType.fuel addr fuelStopDurationMinutes fuelDesc
  constructor
  · show List.Chain' gapLE (fuelCums (addStop st StopType.fuel addr
      fuelStopDurationMinutes fuelDesc).stops)
    rw [hs, fuelCums_append, fuelCums_singleton_fuel _ rfl]
    rw [List.chain'_append]
    refine ⟨h.1, List.chain'_singleton _, ?_⟩
    intro x hx y hy
    simp only [List.head?_cons, Option.mem_def, Option.some.injEq] at hy
    have hx2 := h.2 x hx
    show y ≤ x + fuelStopIntervalMiles
    rw [← hy]
    show (addStop st StopType.fuel addr fuelStopDurationMinutes fuelDesc).cumulativeMiles
      ≤ x + fuelStopIntervalMiles
    rw [hc, hx2.1]
    have := hx2.2
    linarith
  · show ∀ c ∈ (fuelCums (addStop st StopType.fuel addr
      fuelStopDurationMinutes fuelDesc).stops).getLast?, _
    rw [hs, fuelCums_append, fuelCums_singleton_fuel _ rfl]
    intro c hcm
    rw [List.getLast?_concat] at hcm
    simp only [Option.mem_def, Option.some.injEq] at hcm
    subst hcm
    constructor
    · show _ = (insertFuelStop st addr).cumulativeMiles - (insertFuelStop st addr).milesSinceFuel
      show (addStop st StopType.fuel addr fuelStopDurationMinutes fuelDesc).cumulativeMiles = _
      simp [insertFuelStop, hc]
    · show (insertFuelStop st addr).milesSinceFuel ≤ fuelStopIntervalMiles
      simp [insertFuelStop, fuelStopIntervalMiles]

theorem fuelInv_driveAdvance (st : PlanState) (hours miles : ℚ)
    (hm : miles ≤ fuelStopIntervalMiles - st.milesSinceFuel)
    (h : FuelInv st) : FuelInv (driveAdvance st hours miles) := by
  constructor
  · show List.Chain' gapLE (fuelCums st.stops)
    exact h.1
  · show ∀ c ∈ (fuelCums st.stops).getLast?, c = (st.cumulativeMiles + miles) -
      (st.milesSinceFuel + miles) ∧ st.milesSinceFuel + miles ≤ fuelStopIntervalMiles
    intro c hcm
    have h2 := h.2 c hcm
    constructor
    · rw [h2.1]; ring
    · linarith

theorem fuelInv_traverseStep (mp : MapProvider) (st : PlanState) (rem cov : ℚ)
    (h : FuelInv st) : FuelInv (traverseStep mp st rem cov).state := by
  unfold traverseStep
  split
  · simp only [StepOut.state]
    exact fuelInv_insertBreakStop _ _ _ h
  · split
    · simp only [StepOut.state]
      exact fuelInv_insertBreakStop _ _ _ h
    · split
      · simp only [StepOut.state]
        exact fuelInv_insertFuelStop _ _ h
      · simp only [StepOut.state]
        exact fuelInv_driveAdvance _ _ _
          (le_trans (min_le_left _ _) (min_le_right _ _)) h

theorem fuelInv_traverseLoop (mp : MapProvider) (g : ℕ) :
    ∀ (st : PlanState) (rem cov : ℚ) (st1 : PlanState),
    traverseLoop mp g st rem cov = some st1 → FuelInv st → FuelInv st1 := by
  induction g with
  | zero =>
    intro st rem cov st1 h hI
    unfold traverseLoop at h
    split at h
    · exact Option.some.inj h ▸ hI
    · exact absurd h (by simp)
  | succ g ih =>
    intro st rem cov st1 h hI
    unfold traverseLoop at h
    split at h
    · exact Option.some.inj h ▸ hI
    · revert h
      cases hstep : traverseStep mp st rem cov with
      | inserted st2 =>
        intro h
        have : FuelInv st2 := by
          have := fuelInv_traverseStep mp st rem cov hI
          rwa [hstep] at this
        exact ih st2 rem cov st1 h this
      | drove st2 rem2 cov2 =>
        intro h
        have : FuelInv st2 := by
          have := fuelInv_traverseStep mp st rem cov hI
          rwa [hstep] at this
        exact ih st2 rem2 cov2 st1 h this

theorem insertBreakStop_stops (st : PlanState) (addr : String) (bt : BreakType) :
    ∃ x, (insertBreakStop st addr bt).stops = st.stops ++ [x] := by
  cases bt with
  | thirtyMin => exact ⟨_, addStop_stops st StopType.break30min addr break30MinDuration break30Desc⟩
  | tenHour => exact ⟨_, addStop_stops st StopType.break10hr addr break10HrDuration break10Desc⟩

theorem insertFuelStop_stops (st : PlanState) (addr : String) :
    ∃ x, (insertFuelStop st addr).stops = st.stops ++ [x] :=
  ⟨_, addStop_stops st StopType.fuel addr fuelStopDurationMinutes fuelDesc⟩

/-- The stop list of the traversal loop only grows by appending. -/
theorem traverseStep_stops_extend (mp : MapProvider) (st : PlanState) (rem cov : ℚ) :
    ∃ suf, (traverseStep mp st rem cov).state.stops = st.stops ++ suf := by
  unfold traverseStep
  split
  · simp only [StepOut.state]
    obtain ⟨x, hx⟩ := insertBreakStop_stops st (mp.restAddr cov) BreakType.thirtyMin
    exact ⟨[x], hx⟩
  · split
    · simp only [StepOut.state]
      obtain ⟨x, hx⟩ := insertBreakStop_stops st (mp.restAddr cov) BreakType.tenHour
      exact ⟨[x], hx⟩
    · split
      · simp only [StepOut.state]
        obtain ⟨x, hx⟩ := insertFuelStop_stops st (mp.fuelAddr cov)
        exact ⟨[x], hx⟩
      · exact ⟨[], by simp [StepOut.state, driveAdvance]⟩

theorem traverseLoop_stops_extend (mp : MapProvider) (g : ℕ) :
    ∀ (st : PlanState) (rem cov : ℚ) (st1 : PlanState),
    traverseLoop mp g st rem cov = some st1 → ∃ suf, st1.stops = st.stops ++ suf := by
  induction g with
  | zero =>
    intro st rem cov st1 h
    unfold traverseLoop at h
    split at h
    · exact ⟨[], by rw [← Option.some.inj h]; simp⟩
    · exact absurd h (by simp)
  | succ g ih =>
    intro st rem cov st1 h
    unfold traverseLoop at h
    split at h
    · exact ⟨[], by rw [← Option.some.inj h]; simp⟩
    · revert h
      cases hstep : traverseStep mp st rem cov with
      | inserted st2 =>
        intro h
        obtain ⟨s1, hs1⟩ := traverseStep_stops_extend mp st rem cov
        rw [hstep] at hs1
        simp only [StepOut.state] at hs1
        obtain ⟨s2, hs2⟩ := ih st2 rem cov st1 h
        exact ⟨s1 ++ s2, by rw [hs2, hs1, List.append_assoc]⟩
      | drove st2 rem2 cov2 =>
        intro h
        obtain ⟨s1, hs1⟩ := traverseStep_stops_extend mp st rem cov
        rw [hstep] at hs1
        simp only [StepOut.state] at hs1
        obtain ⟨s2, hs2⟩ := ih st2 rem2 cov2 st1 h
        exact ⟨s1 ++ s2, by rw [hs2, hs1, List.append_assoc]⟩

theorem driveAdvance_stops (st : PlanState) (hours miles : ℚ) :
    (driveAdvance st hours miles).stops = st.stops := rfl

/-- Every successful run of stop generation keeps consecutive fuel-stop
mileages at most fuelStopIntervalMiles apart. -/
theorem fuelGaps_generateStops (mp : MapProvider) (trip : TripInput) (base : BaseRoute)
    (gas : ℕ) (st1 : PlanState) (h : generateStops mp trip base gas = some st1) :
    List.Chain' gapLE (fuelCums st1.stops) := by
  simp only [generateStops] at h
  split at h
  · exact absurd h (by simp)
  · rename_i st4 hloop
    have hst3 : FuelInv (addStop (driveAdvance (addStop (initState trip) StopType.current
        trip.currentAddress 0 tripStartDesc) (secondsToHours base.leg0.durationSeconds)
        (metersToMiles base.leg0.distanceMeters)) StopType.pickup trip.pickupAddress
        pickupDurationMinutes pickupDesc) := by
      apply fuelInv_of_no_fuel
      rw [addStop_stops, fuelCums_append, driveAdvance_stops, addStop_stops]
      rw [fuelCums_append, fuelCums_singleton_nonfuel _ (by simp),
        fuelCums_singleton_nonfuel _ (by simp)]
      simp [fuelCums, initState]
    have hst4 : FuelInv st4 := fuelInv_traverseLoop mp gas _ _ _ _ hloop hst3
    have hfin : FuelInv (addStop st4 StopType.dropoff trip.dropoffAddress
        dropoffDurationMinutes dropoffDesc) :=
      fuelInv_addStop_nonfuel st4 _ _ _ _ (by simp) hst4
    rw [← Option.some.inj h]
    exact hfin.1

theorem runZ_eval : generateStops mpZ tripZ baseZ 2 = some stZ := by
  norm_num [generateStops, addStop, driveAdvance, initState, traverseLoop, traverseStep,
    insertBreakStop, insertFuelStop, metersToMiles, secondsToHours, tripZ, baseZ, leg55, mpZ,
    maxDrivingHoursPerDay, maxOnDutyHoursPerDay, required30MinBreakAfterHours,
    averageSpeedMph, fuelStopIntervalMiles, fuelStopDurationMinutes,
    pickupDurationMinutes, dropoffDurationMinutes, min_def, stZ, stopZ0, stopZ1, stopZ2]

theorem runY_eval : generateStops mpZ tripY baseY 3 = some stY := by
  norm_num [generateStops, addStop, driveAdvance, initState, traverseLoop, traverseStep,
    insertBreakStop, insertFuelStop, metersToMiles, secondsToHours, tripY, baseY, mpZ,
    maxDrivingHoursPerDay, maxOnDutyHoursPerDay, required30MinBreakAfterHours,
    averageSpeedMph, fuelStopIntervalMiles, fuelStopDurationMinutes,
    pickupDurationMinutes, dropoffDurationMinutes, min_def, stY,
    stopY0, stopY1, stopY2, stopY3]

/-- Claim C1 counterexample: inserting a BREAK_30MIN stop does not leave
the daily on-duty hours unchanged — the source adds the 30-minute break
duration to daily_on_duty_hours (here 3 becomes 3.5). -/
theorem claimC1_cex :
    (insertBreakStop stC1 restA BreakType.thirtyMin).dailyOnDutyHours = 7 / 2 ∧
    stC1.dailyOnDutyHours = 3 ∧
    (insertBreakStop stC1 restA BreakType.thirtyMin).dailyOnDutyHours ≠
      stC1.dailyOnDutyHours := by
  refine ⟨?_, rfl, ?_⟩ <;>
    norm_num [insertBreakStop, addStop_onDuty_break30, stC1, break30MinDuration]

/-- Claim C1 (amended): inserting a BREAK_30MIN stop resets the
hours-since-break counter to 0 and leaves the daily driving hours, the
miles-since-fuel counter and the cumulative mileage unchanged, while
advancing the clock by 30 minutes; however it also ADDS 0.5 hours to the
daily on-duty counter (the source mutates daily_on_duty_hours). -/
theorem claimC1 (st : PlanState) (addr : String) :
    (insertBreakStop st addr BreakType.thirtyMin).hoursSince30MinBreak = 0 ∧
    (insertBreakStop st addr BreakType.thirtyMin).dailyDrivingHours = st.dailyDrivingHours ∧
    (insertBreakStop st addr BreakType.thirtyMin).milesSinceFuel = st.milesSinceFuel ∧
    (insertBreakStop st addr BreakType.thirtyMin).cumulativeMiles = st.cumulativeMiles ∧
    (insertBreakStop st addr BreakType.thirtyMin).currentTime = st.currentTime + 1 / 2 ∧
    (insertBreakStop st addr BreakType.thirtyMin).dailyOnDutyHours =
      st.dailyOnDutyHours + 1 / 2 ∧
    ((insertBreakStop st addr BreakType.thirtyMin).stops.map fun s => s.stopType) =
      (st.stops.map fun s => s.stopType) ++ [StopType.break30min] := by
  refine ⟨?_, ?_, ?_, ?_, ?_, ?_, ?_⟩ <;>
    norm_num [insertBreakStop, addStop_onDuty_break30, addStop_dailyDrivingHours,
      addStop_milesSinceFuel, addStop_cumulativeMiles, addStop_currentTime,
      addStop_hoursSince30MinBreak, addStop_stops, break30MinDuration]

/-! ## Claim C9 -/

/-- Claim C9: inserting a BREAK_10HR stop resets the daily driving
hours, the daily on-duty hours and the hours-since-30-minute-break
counters to 0, and leaves the miles-since-fuel counter (and cumulative
mileage) unchanged, advancing the clock by 10 hours. -/
theorem claimC9 (st : PlanState) (addr : String) :
    (insertBreakStop st addr BreakType.tenHour).dailyDrivingHours = 0 ∧
    (insertBreakStop st addr BreakType.tenHour).dailyOnDutyHours = 0 ∧
    (insertBreakStop st addr BreakType.tenHour).hoursSince30MinBreak = 0 ∧
    (insertBreakStop st addr BreakType.tenHour).milesSinceFuel = st.milesSinceFuel ∧
    (insertBreakStop st addr BreakType.tenHour).cumulativeMiles = st.cumulativeMiles ∧
    (insertBreakStop st addr BreakType.tenHour).currentTime = st.currentTime + 10 ∧
    ((insertBreakStop st addr BreakType.tenHour).stops.map fun s => s.stopType) =
      (st.stops.map fun s => s.stopType) ++ [StopType.break10hr] := by
  refine ⟨?_, ?_, ?_, ?_, ?_, ?_, ?_⟩ <;>
    norm_num [insertBreakStop, addStop_onDuty_break10, addStop_dailyDrivingHours,
      addStop_milesSinceFuel, addStop_cumulativeMiles, addStop_currentTime,
      addStop_hoursSince30MinBreak, addStop_stops, break10HrDuration]

/-- Claim C3 counterexample: with 45 cycle hours used and a 30-hour base
route, the feasibility gate fails AND persists a modified trip record
(is_feasible flipped to false and the needed/available message stored),
so the trip input record is modified on failure. -/
theorem claimC3_cex :
    (checkFeasibility tripRecC3 routeResC3).2 = false ∧
    (checkFeasibility tripRecC3 routeResC3).1 ≠ tripRecC3 ∧
    (checkFeasibility tripRecC3 routeResC3).1.feasibilityMessage = some (30, 25) := by
  refine ⟨?_, ?_, ?_⟩ <;>
    norm_num [checkFeasibility, tripRecC3, routeResC3, maxHoursPerCycle, TripRec.mk.injEq]

/-- Claim C3 (amended): when available cycle hours are below the
base-route duration the planner fails before creating any Route, Stop or
DailyLog, reporting needed and available hours — but it records that
failure on the trip itself: the persisted trip has is_feasible = false
and the (needed, available) message, so the trip record IS modified. -/
theorem claimC3 (t : TripRec) (r : RouteResult)
    (h : maxHoursPerCycle - t.currentCycleHoursUsed < r.durationHours) :
    checkFeasibility t r =
      ({ t with isFeasible := false
                feasibilityMessage :=
                  some (r.durationHours, maxHoursPerCycle - t.currentCycleHoursUsed) },
        false) := by
  simp only [checkFeasibility]
  rw [if_pos h]

/-- Claim C3 witness at the concrete infeasible trip. -/
theorem claimC3_wit :
    checkFeasibility tripRecC3 routeResC3 =
      ({ tripRecC3 with isFeasible := false
                        feasibilityMessage :=
                          some (routeResC3.durationHours,
                            maxHoursPerCycle - tripRecC3.currentCycleHoursUsed) },
        false) :=
  claimC3 tripRecC3 routeResC3 (by norm_num [tripRecC3, routeResC3, maxHoursPerCycle])

/-- Claim C7 counterexample: the service computes the local date in the
fixed Asia/Amman zone (UTC+3), not in the timezone of the planned start:
for a start at 22:00 UTC on day 0, the planned-start timezone gives day
0 but the service assigns day 1. -/
theorem claimC7_cex :
    serviceLocalDate dtC7 = 1 ∧ specLocalDate dtC7 = 0 ∧
    serviceLocalDate dtC7 ≠ specLocalDate dtC7 := by
  refine ⟨?_, ?_, ?_⟩ <;> decide

/-- Claim C7 (amended): the local calendar date used for day assignment
is computed in the fixed Asia/Amman zone (UTC+3) hard-coded in __init__:
it depends only on the instant of the planned start (not on the timezone
it was expressed in) and equals the floor-day of the instant shifted by
the Amman offset. -/
theorem claimC7 (dt1 dt2 : AwareDT) (h : dt1.instant = dt2.instant) :
    serviceLocalDate dt1 = serviceLocalDate dt2 ∧
    serviceLocalDate dt1 = (dt1.instant + ammanOffsetUs).fdiv usPerDay := by
  unfold serviceLocalDate toAmman dateOfWall
  rw [h]
  exact ⟨rfl, rfl⟩

/-- Claim C7 witness: the same instant expressed in UTC and in UTC+1
gets the same service-assigned date, namely day 1. -/
theorem claimC7_wit :
    serviceLocalDate dtC7 = serviceLocalDate dtC7b ∧
    serviceLocalDate dtC7 = (dtC7.instant + ammanOffsetUs).fdiv usPerDay :=
  claimC7 dtC7 dtC7b (by decide)

/-! ## Claim C10 -/

/-- Claim C10: the planner drives the whole current-to-pickup leg as one
uninterrupted interval with no break or fuel checks: in every successful
run the stop after CURRENT is PICKUP (whatever the leg's length), the
pickup arrival is exactly plannedStart + leg0 duration, and the pickup
cumulative mileage is exactly leg0's distance. -/
theorem claimC10 (mp : MapProvider) (trip : TripInput) (base : BaseRoute) (gas : ℕ)
    (st1 : PlanState) (h : generateStops mp trip base gas = some st1) :
    (st1.stops.map fun s => (s.stopType, s.arrival, s.cumulativeMiles)).take 2 =
      [(StopType.current, trip.plannedStartHours, 0),
       (StopType.pickup, trip.plannedStartHours + secondsToHours base.leg0.durationSeconds,
        metersToMiles base.leg0.distanceMeters)] := by
  simp only [generateStops] at h
  split at h
  · exact absurd h (by simp)
  · rename_i st4 hloop
    obtain ⟨suf, hsuf⟩ := traverseLoop_stops_extend mp gas _ _ _ st4 hloop
    rw [← Option.some.inj h]
    rw [addStop_stops, hsuf, addStop_stops, driveAdvance_stops, addStop_stops]
    norm_num [initState, driveAdvance, addStop_currentTime, addStop_cumulativeMiles]

/-- Claim C10 witness at the concrete 55-mile run. -/
theorem claimC10_wit :
    (stZ.stops.map fun s => (s.stopType, s.arrival, s.cumulativeMiles)).take 2 =
      [(StopType.current, (0 : ℚ), (0 : ℚ)), (StopType.pickup, 1, 55)] := by
  have h := claimC10 mpZ tripZ baseZ 2 stZ runZ_eval
  rw [h]
  norm_num [tripZ, baseZ, leg55, secondsToHours, metersToMiles]

/-! ## Claim C6 -/

/-- Claim C6 counterexample: in the 1100-mile-pickup-leg run the first
FUEL stop sits at cumulative mile 1100, so the mileage between trip
start and the first fuel stop exceeds 1000 plus any small epsilon (here
epsilon = 1 mile): the current-to-pickup leg performs no fuel checks. -/
theorem claimC6_cex :
    generateStops mpZ tripY baseY 3 = some stY ∧
    (fuelCums stY.stops).head? = some 1100 ∧
    ¬((1100 : ℚ) ≤ 1000 + 1) := by
  refine ⟨runY_eval, by decide, by norm_num⟩

/-- Claim C6 (amended): in every successful run the cumulative mileage
between any two CONSECUTIVE fuel stops is at most 1000 miles; the gap
between the trip start and the FIRST fuel stop is not so bounded, since
the current-to-pickup leg is driven without fuel checks (it can be 1100
miles or more). -/
theorem claimC6 (mp : MapProvider) (trip : TripInput) (base : BaseRoute) (gas : ℕ)
    (st1 : PlanState) (h : generateStops mp trip base gas = some st1) :
    List.Chain' gapLE (fuelCums st1.stops) :=
  fuelGaps_generateStops mp trip base gas st1 h

/-- Claim C6 witness at the concrete 1100-mile-leg run. -/
theorem claimC6_wit : List.Chain' gapLE (fuelCums stY.stops) :=
  claimC6 mpZ tripY baseY 3 stY runY_eval

/-! ## Properties of the entry validation loop -/

theorem validateAux_sublist (p : Entry) (l : List Entry) :
    (validateAux p l).Sublist l := by
  induction l generalizing p with
  | nil => simp [validateAux]
  | cons e rest ih =>
    unfold validateAux
    split
    · exact (ih e).cons e
    · split
      · exact (ih e).cons e
      · exact (ih e).cons₂ e

theorem validateEntries_sublist (l : List Entry) : (validateEntries l).Sublist l := by
  cases l with
  | nil => simp [validateEntries]
  | cons e rest =>
    show (if e.eend ≤ e.start then validateAux e rest else e :: validateAux e rest).Sublist
      (e :: rest)
    split
    · exact (validateAux_sublist e rest).cons e
    · exact (validateAux_sublist e rest).cons₂ e

theorem validateAux_pos (p : Entry) (l : List Entry) :
    ∀ e ∈ validateAux p l, e.start < e.eend := by
  induction l generalizing p with
  | nil => simp [validateAux]
  | cons e rest ih =>
    unfold validateAux
    split
    · exact ih e
    · split
      · exact ih e
      · rename_i h1 h2
        intro f hf
        rcases List.mem_cons.mp hf with hfe | hfr
        · rw [hfe]; exact not_le.mp h1
        · exact ih e f hfr

theorem validateEntries_pos (l : List Entry) :
    ∀ e ∈ validateEntries l, e.start < e.eend := by
  cases l with
  | nil => simp [validateEntries]
  | cons e rest =>
    show ∀ f ∈ (if e.eend ≤ e.start then validateAux e rest else e :: validateAux e rest),
      f.start < f.eend
    split
    · exact validateAux_pos e rest
    · rename_i h1
      intro f hf
      rcases List.mem_cons.mp hf with hfe | hfr
      · rw [hfe]; exact not_le.mp h1
      · exact validateAux_pos e rest f hfr

/-- Claim C2 counterexample: on a day whose drive slices overlap (an
invariant violation), the builder produces a pending entry with
end ≤ start — driving from 10 to 7 — then silently DROPS it in the
persistence loop and keeps the remaining entries: the persisted output
below is missing that entry (and even overlaps), and no error of any
kind is raised. -/
theorem claimC2_cex :
    createLogEntriesForDay 0 100 [drvC2a, drvC2b] [] =
      [{ status := DutyStatus.driving, start := 0, eend := 10
         loc := enRouteTo addrB, remarks := drivingFrom addrA },
       { status := DutyStatus.offDuty, start := 7, eend := 100
         loc := enRouteTo addrC, remarks := offDutyRemark }] := by
  decide

/-- Claim C2 (amended): there is no TimelineError anywhere in the code;
when per-day duty entries violate the timeline invariant the persistence
loop logs the violation and silently skips the offending entry,
continuing with the rest — so the rows actually created are always a
sublist of the pending entries in which every kept row has end > start. -/
theorem claimC2 (l : List Entry) :
    (validateEntries l).Sublist l ∧ ∀ e ∈ validateEntries l, e.start < e.eend :=
  ⟨validateEntries_sublist l, validateEntries_pos l⟩

/-- Claim C2 witness at a concrete pending-entry list containing an
invalid entry. -/
theorem claimC2_wit :
    (validateEntries [entC2a, entC2b]).Sublist [entC2a, entC2b] ∧
    entC2a.start < entC2a.eend :=
  ⟨(claimC2 [entC2a, entC2b]).1, (claimC2 [entC2a, entC2b]).2 entC2a (by decide)⟩

theorem insertEvent_perm (x : Event) (l : List Event) :
    (insertEvent x l).Perm (x :: l) := by
  induction l with
  | nil => exact List.Perm.refl _
  | cons y t ih =>
    unfold insertEvent
    split
    · exact (List.Perm.cons y ih).trans (List.Perm.swap x y t)
    · exact List.Perm.refl _

theorem insertEvent_split (x : Event) (l : List Event) (hs : List.Pairwise keyLE l) :
    ∃ l₁ l₂, l = l₁ ++ l₂ ∧ insertEvent x l = l₁ ++ x :: l₂ ∧
      (∀ y ∈ l₁, y.key ≤ x.key) ∧ (∀ y ∈ l₂, x.key < y.key) := by
  induction l with
  | nil => exact ⟨[], [], rfl, rfl, by simp, by simp⟩
  | cons y t ih =>
    rw [List.pairwise_cons] at hs
    unfold insertEvent
    split
    · rename_i hyx
      obtain ⟨l₁, l₂, he, hi, h1, h2⟩ := ih hs.2
      refine ⟨y :: l₁, l₂, by rw [he]; rfl, by rw [hi]; rfl, ?_, h2⟩
      intro z hz
      rcases List.mem_cons.mp hz with hzy | hzm
      · rw [hzy]; exact hyx
      · exact h1 z hzm
    · rename_i hyx
      refine ⟨[], y :: t, rfl, rfl, by simp, ?_⟩
      intro z hz
      have hxy : x.key < y.key := not_le.mp hyx
      rcases List.mem_cons.mp hz with hzy | hzm
      · rw [hzy]; exact hxy
      · exact lt_of_lt_of_le hxy (hs.1 z hzm)

theorem pairwise_insert_middle {α : Type} {R : α → α → Prop} {l₁ l₂ : List α} {x : α}
    (h : List.Pairwise R (l₁ ++ l₂)) (h₁ : ∀ y ∈ l₁, R y x) (h₂ : ∀ y ∈ l₂, R x y) :
    List.Pairwise R (l₁ ++ x :: l₂) := by
  obtain ⟨ha, hb, hab⟩ := List.pairwise_append.mp h
  rw [List.pairwise_append]
  refine ⟨ha, ?_, ?_⟩
  · rw [List.pairwise_cons]; exact ⟨h₂, hb⟩
  · intro a haa b hbb
    rcases List.mem_cons.mp hbb with hbx | hbb
    · rw [hbx]; exact h₁ a haa
    · exact hab a haa b hbb

theorem insertEvent_sorted (x : Event) (l : List Event) (hs : List.Pairwise keyLE l) :
    List.Pairwise keyLE (insertEvent x l) := by
  obtain ⟨l₁, l₂, he, hi, h1, h2⟩ := insertEvent_split x l hs
  rw [hi]
  exact pairwise_insert_middle (he ▸ hs) (fun y hy => h1 y hy)
    (fun y hy => le_of_lt (h2 y hy))

theorem pairwise_stopDriveOrd_of_drives (l : List Event)
    (h : ∀ e ∈ l, e.isStop = false) : List.Pairwise stopDriveOrd l := by
  induction l with
  | nil => exact List.Pairwise.nil
  | cons x t ih =>
    rw [List.pairwise_cons]
    refine ⟨?_, ih fun e he => h e (List.mem_cons_of_mem x he)⟩
    intro b _ hxs _
    have := h x (List.mem_cons_self x t)
    rw [this] at hxs
    exact absurd hxs (by simp)

theorem sorted_ord_insert_stop (x : Event) (hx : x.isStop = true) (l : List Event)
    (hs : List.Pairwise keyLE l) (hp : List.Pairwise stopDriveOrd l) :
    List.Pairwise keyLE (insertEvent x l) ∧
    List.Pairwise stopDriveOrd (insertEvent x l) := by
  obtain ⟨l₁, l₂, he, hi, h1, h2⟩ := insertEvent_split x l hs
  rw [hi]
  constructor
  · exact pairwise_insert_middle (he ▸ hs) (fun y hy => h1 y hy)
      (fun y hy => le_of_lt (h2 y hy))
  · refine pairwise_insert_middle (he ▸ hp) ?_ ?_
    · intro y _ _ hxd
      rw [hx] at hxd
      exact absurd hxd (by simp)
    · intro y hy _ _
      exact ne_of_lt (h2 y hy)

theorem sortAux_sorted (l : List Event) :
    ∀ acc, List.Pairwise keyLE acc → List.Pairwise keyLE (sortAux acc l) := by
  induction l with
  | nil => intro acc h; exact h
  | cons x t ih => intro acc h; exact ih (insertEvent x acc) (insertEvent_sorted x acc h)

theorem sortAux_perm (l : List Event) : ∀ acc, (sortAux acc l).Perm (acc ++ l) := by
  induction l with
  | nil =>
    intro acc
    rw [List.append_nil]
    exact List.Perm.refl _
  | cons x t ih =>
    intro acc
    have h1 : (sortAux (insertEvent x acc) t).Perm (insertEvent x acc ++ t) := ih _
    have h2 : (insertEvent x acc ++ t).Perm ((x :: acc) ++ t) :=
      (insertEvent_perm x acc).append_right t
    have h3 : ((x :: acc) ++ t).Perm (acc ++ x :: t) := by
      rw [List.cons_append]
      exact List.perm_middle.symm
    exact (h1.trans h2).trans h3

theorem sortAux_append (l₁ l₂ : List Event) :
    ∀ acc, sortAux acc (l₁ ++ l₂) = sortAux (sortAux acc l₁) l₂ := by
  induction l₁ with
  | nil => intro acc; rfl
  | cons x t ih => intro acc; exact ih (insertEvent x acc)

theorem sortAux_ord_stops (l : List Event) (hl : ∀ e ∈ l, e.isStop = true) :
    ∀ acc, List.Pairwise keyLE acc → List.Pairwise stopDriveOrd acc →
      List.Pairwise stopDriveOrd (sortAux acc l) := by
  induction l with
  | nil => intro acc _ h2; exact h2
  | cons x t ih =>
    intro acc h1 h2
    have hx := hl x (List.mem_cons_self x t)
    have hi := sorted_ord_insert_stop x hx acc h1 h2
    exact ih (fun e he => hl e (List.mem_cons_of_mem x he)) (insertEvent x acc) hi.1 hi.2

theorem mkAllEvents_sorted (drives : List DrvSlice) (stops : List StopSlice) :
    List.Pairwise keyLE (mkAllEvents drives stops) :=
  sortAux_sorted _ [] List.Pairwise.nil

theorem mkAllEvents_perm (drives : List DrvSlice) (stops : List StopSlice) :
    (mkAllEvents drives stops).Perm (drives.map Event.drive ++ stops.map Event.stop) :=
  sortAux_perm _ []

theorem mkAllEvents_drive_first (drives : List DrvSlice) (stops : List StopSlice) :
    List.Pairwise stopDriveOrd (mkAllEvents drives stops) := by
  unfold mkAllEvents sortEvents
  rw [sortAux_append]
  have hAs : List.Pairwise keyLE (sortAux [] (drives.map Event.drive)) :=
    sortAux_sorted _ [] List.Pairwise.nil
  have hAnd : ∀ e ∈ sortAux [] (drives.map Event.drive), e.isStop = false := by
    intro e he
    have hm := (sortAux_perm (drives.map Event.drive) []).mem_iff.mp he
    rw [List.nil_append] at hm
    obtain ⟨d, _, hd⟩ := List.mem_map.mp hm
    rw [← hd]
    rfl
  have hAp := pairwise_stopDriveOrd_of_drives _ hAnd
  exact sortAux_ord_stops (stops.map Event.stop)
    (by intro e he; obtain ⟨s, _, hs⟩ := List.mem_map.mp he; rw [← hs]; rfl)
    _ hAs hAp

theorem evDisj_symm : Symmetric evDisj := by
  intro a b h
  exact h.symm

theorem chained_append (a b c : ℤ) (l₁ l₂ : List Entry)
    (h1 : Chained a l₁ b) (h2 : Chained b l₂ c) : Chained a (l₁ ++ l₂) c := by
  induction l₁ generalizing a with
  | nil =>
    have hab : a = b := h1
    rw [List.nil_append, hab]
    exact h2
  | cons e t ih =>
    obtain ⟨he, hlt, hrest⟩ := h1
    exact ⟨he, hlt, ih e.eend hrest⟩

theorem chained_snoc (a b : ℤ) (l : List Entry) (e : Entry)
    (h1 : Chained a l b) (he : e.start = b) (hlt : b < e.eend) :
    Chained a (l ++ [e]) e.eend :=
  chained_append a b e.eend l [e] h1 ⟨he, hlt, rfl⟩

/-- The event loop preserves the partition chain: starting from pending
entries that chain from day start to the cursor, processing a sorted,
pairwise-disjoint, well-formed event list yields entries that chain from
day start to the final cursor, which stays inside the day window. -/
theorem emitEvents_chain (dayStartT dayEndT : ℤ) (es : List Event) :
    ∀ (acc : List Entry) (c : ℤ),
    Chained dayStartT acc c →
    dayStartT ≤ c → c ≤ dayEndT →
    (∀ e ∈ es, EvWF dayStartT dayEndT e) →
    (∀ e ∈ es, e.isStop = false → e.key < e.endKey) →
    (∀ e ∈ es, e.key < e.endKey → c ≤ e.key) →
    List.Pairwise keyLE es →
    List.Pairwise evDisj es →
    Chained dayStartT (emitEvents acc c es).1 (emitEvents acc c es).2 ∧
    dayStartT ≤ (emitEvents acc c es).2 ∧ (emitEvents acc c es).2 ≤ dayEndT := by
  induction es with
  | nil =>
    intro acc c hch hlc hcd _ _ _ _ _
    exact ⟨hch, hlc, hcd⟩
  | cons ev rest ih =>
    intro acc c hch hlc hcd hwf hpos hcb hsort hdisj
    obtain ⟨hk1, hk2, hk3⟩ := hwf ev (List.mem_cons_self ev rest)
    rw [List.pairwise_cons] at hsort hdisj
    have hwf2 : ∀ e ∈ rest, EvWF dayStartT dayEndT e :=
      fun e he => hwf e (List.mem_cons_of_mem ev he)
    have hpos2 : ∀ e ∈ rest, e.isStop = false → e.key < e.endKey :=
      fun e he => hpos e (List.mem_cons_of_mem ev he)
    cases ev with
    | drive d =>
      have hdd : d.dayStart < d.dayEnd :=
        hpos (Event.drive d) (List.mem_cons_self _ rest) rfl
      have hcle : c ≤ d.dayStart :=
        hcb (Event.drive d) (List.mem_cons_self _ rest) hdd
      simp only [Event.key, Event.endKey] at hk1 hk2 hk3
      -- the new cursor is d.dayEnd in both branches of the gap fill
      have hnext : ∀ (acc1 : List Entry), Chained dayStartT acc1 d.dayEnd →
          Chained dayStartT (emitEvents acc1 d.dayEnd rest).1
            (emitEvents acc1 d.dayEnd rest).2 ∧
          dayStartT ≤ (emitEvents acc1 d.dayEnd rest).2 ∧
          (emitEvents acc1 d.dayEnd rest).2 ≤ dayEndT := by
        intro acc1 hch1
        refine ih acc1 d.dayEnd hch1 (le_trans hlc (le_trans hcle (le_of_lt hdd))) hk3
          hwf2 hpos2 ?_ hsort.2 hdisj.2
        intro f hf hfpos
        rcases hdisj.1 f hf with hcase | hcase
        · exact hcase
        · have hks : d.dayStart ≤ f.key := hsort.1 f hf
          simp only [Event.endKey, Event.key] at hcase
          exact absurd (lt_of_lt_of_le hfpos (le_trans hcase hks)) (lt_irrefl _)
      by_cases hgt : c < d.dayStart
      · simp only [emitEvents, gt_iff_lt, if_pos hgt]
        apply hnext
        have h1 : Chained dayStartT (acc ++ [mkOffEntry acc c d.dayStart d.fromAddr])
            d.dayStart := chained_snoc dayStartT c acc _ hch rfl hgt
        exact chained_snoc dayStartT d.dayStart _ _ h1 rfl hdd
      · simp only [emitEvents, gt_iff_lt, if_neg hgt]
        apply hnext
        have hceq : c = d.dayStart := le_antisymm hcle (not_lt.mp hgt)
        refine chained_snoc dayStartT c acc _ hch rfl ?_
        rw [hceq]
        exact hdd
    | stop s =>
      simp only [Event.key, Event.endKey] at hk1 hk2 hk3
      have hcbs : ∀ f ∈ rest, f.key < f.endKey → s.dayDeparture ≤ f.key := by
        intro f hf hfpos
        rcases hdisj.1 f hf with hcase | hcase
        · exact hcase
        · have hks : s.dayArrival ≤ f.key := hsort.1 f hf
          simp only [Event.endKey, Event.key] at hcase
          exact absurd (lt_of_lt_of_le hfpos (le_trans hcase hks)) (lt_irrefl _)
      have hcbs2 : ∀ f ∈ rest, f.key < f.endKey → s.dayArrival ≤ f.key := by
        intro f hf _
        exact hsort.1 f hf
      by_cases hgt : c < s.dayArrival
      · simp only [emitEvents, gt_iff_lt, if_pos hgt]
        have hacc1 : Chained dayStartT (acc ++ [mkOffEntry acc c s.dayArrival s.addr])
            s.dayArrival := chained_snoc dayStartT c acc _ hch rfl hgt
        by_cases hdep : s.dayArrival < s.dayDeparture
        · rw [if_pos hdep]
          exact ih _ s.dayDeparture
            (chained_snoc dayStartT s.dayArrival _ _ hacc1 rfl hdep)
            (le_trans hk1 hk2) hk3 hwf2 hpos2 hcbs hsort.2 hdisj.2
        · rw [if_neg hdep]
          exact ih _ s.dayArrival hacc1 hk1 (le_trans hk2 hk3) hwf2 hpos2 hcbs2
            hsort.2 hdisj.2
      · simp only [emitEvents, gt_iff_lt, if_neg hgt]
        by_cases hdep : c < s.dayDeparture
        · rw [if_pos hdep]
          refine ih _ s.dayDeparture (chained_snoc dayStartT c acc _ hch rfl hdep)
            (le_trans hk1 hk2) hk3 hwf2 hpos2 hcbs hsort.2 hdisj.2
        · rw [if_neg hdep]
          refine ih acc c hch hlc hcd hwf2 hpos2 ?_ hsort.2 hdisj.2
          intro f hf hfpos
          exact hcb f (List.mem_cons_of_mem _ hf) hfpos

/-- The persistence loop keeps a chained entry list unchanged. -/
theorem validateAux_of_chained (p : Entry) (l : List Entry) (b : ℤ)
    (h : Chained p.eend l b) : validateAux p l = l := by
  induction l generalizing p with
  | nil => rfl
  | cons e t ih =>
    obtain ⟨he, hlt, hrest⟩ := h
    unfold validateAux
    rw [if_neg (by rw [he]; exact not_le.mpr hlt),
      if_neg (by rw [he]; exact lt_irrefl _)]
    rw [ih e hrest]

theorem validateEntries_of_chained (a : ℤ) (l : List Entry) (b : ℤ)
    (h : Chained a l b) : validateEntries l = l := by
  cases l with
  | nil => rfl
  | cons e t =>
    obtain ⟨he, hlt, hrest⟩ := h
    show (if e.eend ≤ e.start then validateAux e t else e :: validateAux e t) = e :: t
    rw [if_neg (by rw [he]; exact not_le.mpr hlt)]
    rw [validateAux_of_chained e t b hrest]

theorem pairwise_of_perm_symm {α : Type} {R : α → α → Prop} (hR : Symmetric R) :
    ∀ {l₁ l₂ : List α}, l₁.Perm l₂ → List.Pairwise R l₁ → List.Pairwise R l₂ := by
  intro l₁ l₂ hp
  induction hp with
  | nil => exact id
  | cons x p ih =>
    intro h
    rw [List.pairwise_cons] at h ⊢
    exact ⟨fun b hb => h.1 b (p.mem_iff.mpr hb), ih h.2⟩
  | swap x y l =>
    intro h
    rw [List.pairwise_cons] at h ⊢
    obtain ⟨h1, h2⟩ := h
    rw [List.pairwise_cons] at h2 ⊢
    obtain ⟨h3, h4⟩ := h2
    refine ⟨?_, fun b hb => h1 b (List.mem_cons_of_mem _ hb), h4⟩
    intro b hb
    rcases List.mem_cons.mp hb with hby | hbl
    · rw [hby]; exact hR (h1 x (List.mem_cons_self x l))
    · exact h3 b hbl
  | trans _ _ ih1 ih2 => exact fun h => ih2 (ih1 h)

/-! ## Claim C4 -/

/-- Claim C4 (amended): for every generated daily log whose projected
slices are well-formed (each inside the day window, drive slices of
positive length, slices pairwise non-overlapping — exactly what the day
projector produces), the emitted duty segments are strictly time-ordered,
pairwise non-overlapping, adjacent, and partition the day window exactly —
but that window is [00:00, 23:59:59.999999] (datetime.max.time), one
microsecond short of local midnight 24:00. -/
theorem claimC4 (d : ℤ) (drives : List DrvSlice) (stops : List StopSlice)
    (hd : ∀ dr ∈ drives, dayStartUs d ≤ dr.dayStart ∧ dr.dayStart < dr.dayEnd ∧
      dr.dayEnd ≤ dayEndUs d)
    (hs : ∀ s ∈ stops, dayStartUs d ≤ s.dayArrival ∧ s.dayArrival ≤ s.dayDeparture ∧
      s.dayDeparture ≤ dayEndUs d)
    (hdisj : List.Pairwise evDisj (drives.map Event.drive ++ stops.map Event.stop)) :
    Chained (dayStartUs d) (createLogEntriesForDay (dayStartUs d) (dayEndUs d) drives stops)
      (dayEndUs d) := by
  have hperm := mkAllEvents_perm drives stops
  have hmem : ∀ e ∈ mkAllEvents drives stops,
      e ∈ drives.map Event.drive ++ stops.map Event.stop :=
    fun e he => hperm.mem_iff.mp he
  have hwf : ∀ e ∈ mkAllEvents drives stops, EvWF (dayStartUs d) (dayEndUs d) e := by
    intro e he
    rcases List.mem_append.mp (hmem e he) with hmd | hms
    · obtain ⟨dr, hdr, hre⟩ := List.mem_map.mp hmd
      obtain ⟨a, b, c⟩ := hd dr hdr
      rw [← hre]
      exact ⟨a, le_of_lt b, c⟩
    · obtain ⟨s, hsm, hre⟩ := List.mem_map.mp hms
      obtain ⟨a, b, c⟩ := hs s hsm
      rw [← hre]
      exact ⟨a, b, c⟩
  have hpos : ∀ e ∈ mkAllEvents drives stops, e.isStop = false → e.key < e.endKey := by
    intro e he hf
    rcases List.mem_append.mp (hmem e he) with hmd | hms
    · obtain ⟨dr, hdr, hre⟩ := List.mem_map.mp hmd
      rw [← hre]
      exact (hd dr hdr).2.1
    · obtain ⟨s, hsm, hre⟩ := List.mem_map.mp hms
      rw [← hre] at hf
      exact absurd hf (by simp [Event.isStop])
  have hcb : ∀ e ∈ mkAllEvents drives stops, e.key < e.endKey → dayStartUs d ≤ e.key :=
    fun e he _ => (hwf e he).1
  have hdisj2 : List.Pairwise evDisj (mkAllEvents drives stops) :=
    pairwise_of_perm_symm evDisj_symm hperm.symm hdisj
  have hse : dayStartUs d ≤ dayEndUs d := by
    unfold dayStartUs dayEndUs usPerDay
    omega
  have hemit := emitEvents_chain (dayStartUs d) (dayEndUs d) (mkAllEvents drives stops)
    [] (dayStartUs d) rfl (le_refl _) hse hwf hpos hcb
    (mkAllEvents_sorted drives stops) hdisj2
  unfold createLogEntriesForDay closeDay
  by_cases hc : (emitEvents [] (dayStartUs d) (mkAllEvents drives stops)).2 < dayEndUs d
  · rw [if_pos hc]
    have hch := chained_snoc _ _ _
      (mkOffEntry (emitEvents [] (dayStartUs d) (mkAllEvents drives stops)).1
        (emitEvents [] (dayStartUs d) (mkAllEvents drives stops)).2 (dayEndUs d) naLoc)
      hemit.1 rfl hc
    rw [validateEntries_of_chained _ _ _ hch]
    exact hch
  · rw [if_neg hc]
    have heq : (emitEvents [] (dayStartUs d) (mkAllEvents drives stops)).2 = dayEndUs d :=
      le_antisymm hemit.2.2 (not_lt.mp hc)
    have hch : Chained (dayStartUs d)
        (emitEvents [] (dayStartUs d) (mkAllEvents drives stops)).1 (dayEndUs d) :=
      heq ▸ hemit.1
    rw [validateEntries_of_chained _ _ _ hch]
    exact hch

/-- Claim C4 witness: a concrete day-0 log with one pickup slice
partitions [00:00, 23:59:59.999999]. -/
theorem claimC4_wit :
    Chained (dayStartUs 0) (createLogEntriesForDay (dayStartUs 0) (dayEndUs 0) [] [stpC4])
      (dayEndUs 0) :=
  claimC4 0 [] [stpC4] (by simp) (by decide) (by decide)

/-- Claim C4 counterexample: the same concrete daily log does NOT
partition the full 24-hour window up to local midnight 24:00 — its last
segment ends at 23:59:59.999999 (one microsecond early), because
_create_daily_log_for_date sets day_end = datetime.max.time(). -/
theorem claimC4_cex :
    ¬ Chained (dayStartUs 0) (createLogEntriesForDay (dayStartUs 0) (dayEndUs 0) [] [stpC4])
        usPerDay ∧
    Chained (dayStartUs 0) (createLogEntriesForDay (dayStartUs 0) (dayEndUs 0) [] [stpC4])
      (usPerDay - 1) := by
  exact ⟨by decide, by decide⟩

/-- Claim C5 counterexample: a stop slice and a drive slice that start
at the identical instant 10 are ordered DRIVE first, not STOP first —
drives are appended to all_events before stops and the sort is stable,
keying only on the start time. -/
theorem claimC5_cex :
    mkAllEvents [drvC5] [stpC5] = [Event.drive drvC5, Event.stop stpC5] ∧
    drvC5.dayStart = stpC5.dayArrival := by
  exact ⟨by decide, by decide⟩

/-- Claim C5 (amended): in every per-date event stream, when a stop
slice and a drive slice start at the identical instant the DRIVE event
is ordered BEFORE the STOP event: nowhere in the sorted stream does a
stop precede a drive with the same start time. -/
theorem claimC5 (drives : List DrvSlice) (stops : List StopSlice) :
    List.Pairwise stopDriveOrd (mkAllEvents drives stops) :=
  mkAllEvents_drive_first drives stops

/-! ## Claim C8 -/

/-- Claim C8: each iteration of the pickup-to-dropoff loop applies the
priority checks in the fixed source order — (1) 30-minute break when
hours since break have reached 8, (2) 10-hour rest when daily driving
has reached 11 or daily on-duty has reached 14, (3) fuel when miles
since fuel have reached 1000, (4) otherwise drive — the first match
wins, and an iteration that inserts a stop appends exactly that stop and
neither drives nor consumes remaining distance. -/
theorem claimC8 (mp : MapProvider) (st : PlanState) (rem cov : ℚ) :
    (required30MinBreakAfterHours ≤ st.hoursSince30MinBreak →
      ((traverseStep mp st rem cov).state.stops.map fun s => s.stopType) =
        (st.stops.map fun s => s.stopType) ++ [StopType.break30min] ∧
      (traverseStep mp st rem cov).remAfter rem = rem ∧
      (traverseStep mp st rem cov).state.cumulativeMiles = st.cumulativeMiles) ∧
    (st.hoursSince30MinBreak < required30MinBreakAfterHours →
      (maxDrivingHoursPerDay ≤ st.dailyDrivingHours ∨
       maxOnDutyHoursPerDay ≤ st.dailyOnDutyHours) →
      ((traverseStep mp st rem cov).state.stops.map fun s => s.stopType) =
        (st.stops.map fun s => s.stopType) ++ [StopType.break10hr] ∧
      (traverseStep mp st rem cov).remAfter rem = rem ∧
      (traverseStep mp st rem cov).state.cumulativeMiles = st.cumulativeMiles) ∧
    (st.hoursSince30MinBreak < required30MinBreakAfterHours →
      st.dailyDrivingHours < maxDrivingHoursPerDay →
      st.dailyOnDutyHours < maxOnDutyHoursPerDay →
      fuelStopIntervalMiles ≤ st.milesSinceFuel →
      ((traverseStep mp st rem cov).state.stops.map fun s => s.stopType) =
        (st.stops.map fun s => s.stopType) ++ [StopType.fuel] ∧
      (traverseStep mp st rem cov).remAfter rem = rem ∧
      (traverseStep mp st rem cov).state.cumulativeMiles = st.cumulativeMiles) ∧
    (st.hoursSince30MinBreak < required30MinBreakAfterHours →
      st.dailyDrivingHours < maxDrivingHoursPerDay →
      st.dailyOnDutyHours < maxOnDutyHoursPerDay →
      st.milesSinceFuel < fuelStopIntervalMiles →
      (traverseStep mp st rem cov).state.stops = st.stops ∧
      (traverseStep mp st rem cov).state.cumulativeMiles = st.cumulativeMiles +
        min (min ((min (required30MinBreakAfterHours - st.hoursSince30MinBreak)
          (min (maxDrivingHoursPerDay - st.dailyDrivingHours)
            (maxOnDutyHoursPerDay - st.dailyOnDutyHours))) * averageSpeedMph)
          (fuelStopIntervalMiles - st.milesSinceFuel)) rem ∧
      (traverseStep mp st rem cov).remAfter rem = rem -
        min (min ((min (required30MinBreakAfterHours - st.hoursSince30MinBreak)
          (min (maxDrivingHoursPerDay - st.dailyDrivingHours)
            (maxOnDutyHoursPerDay - st.dailyOnDutyHours))) * averageSpeedMph)
          (fuelStopIntervalMiles - st.milesSinceFuel)) rem) := by
  refine ⟨?_, ?_, ?_, ?_⟩
  · intro h1
    unfold traverseStep
    rw [if_pos h1]
    simp [StepOut.state, StepOut.remAfter, insertBreakStop, addStop_stops,
      addStop_cumulativeMiles]
  · intro h1 h2
    unfold traverseStep
    rw [if_neg (not_le.mpr h1), if_pos h2]
    simp [StepOut.state, StepOut.remAfter, insertBreakStop, addStop_stops,
      addStop_cumulativeMiles]
  · intro h1 h2 h3 h4
    unfold traverseStep
    rw [if_neg (not_le.mpr h1), if_neg (not_or.mpr ⟨not_le.mpr h2, not_le.mpr h3⟩),
      if_pos h4]
    simp [StepOut.state, StepOut.remAfter, insertFuelStop, addStop_stops,
      addStop_cumulativeMiles]
  · intro h1 h2 h3 h4
    unfold traverseStep
    rw [if_neg (not_le.mpr h1), if_neg (not_or.mpr ⟨not_le.mpr h2, not_le.mpr h3⟩),
      if_neg (not_le.mpr h4)]
    simp [StepOut.state, StepOut.remAfter, driveAdvance]

/-- Claim C8 witness: each of the four priority rules observed at a
concrete state that triggers exactly it (in particular the 30-minute
break wins over fuel at stepStA where both have triggered). -/
theorem claimC8_wit :
    ((traverseStep mpZ stepStA 100 0).state.stops.map fun s => s.stopType) =
      [StopType.break30min] ∧
    ((traverseStep mpZ stepStB 100 0).state.stops.map fun s => s.stopType) =
      [StopType.break10hr] ∧
    ((traverseStep mpZ stepStC 100 0).state.stops.map fun s => s.stopType) =
      [StopType.fuel] ∧
    (traverseStep mpZ stepStD 55 0).state.cumulativeMiles = 55 := by
  refine ⟨?_, ?_, ?_, ?_⟩
  · have h := ((claimC8 mpZ stepStA 100 0).1
      (by norm_num [stepStA, required30MinBreakAfterHours])).1
    simpa [stepStA] using h
  · have h := ((claimC8 mpZ stepStB 100 0).2.1
      (by norm_num [stepStB, required30MinBreakAfterHours])
      (Or.inl (by norm_num [stepStB, maxDrivingHoursPerDay]))).1
    simpa [stepStB] using h
  · have h := ((claimC8 mpZ stepStC 100 0).2.2.1
      (by norm_num [stepStC, required30MinBreakAfterHours])
      (by norm_num [stepStC, maxDrivingHoursPerDay])
      (by norm_num [stepStC, maxOnDutyHoursPerDay])
      (by norm_num [stepStC, fuelStopIntervalMiles])).1
    simpa [stepStC] using h
  · have h := ((claimC8 mpZ stepStD 55 0).2.2.2
      (by norm_num [stepStD, required30MinBreakAfterHours])
      (by norm_num [stepStD, maxDrivingHoursPerDay])
      (by norm_num [stepStD, maxOnDutyHoursPerDay])
      (by norm_num [stepStD, fuelStopIntervalMiles])).2.1
    rw [h]
    norm_num [stepStD, required30MinBreakAfterHours, maxDrivingHoursPerDay,
      maxOnDutyHoursPerDay, fuelStopIntervalMiles, averageSpeedMph, min_def]

end Trucking
